import Mathlib

/-!
# Kernel control structures of `virt/if-fake.h` and `virt/if-bridge.h`

The two headers declare the wire structures exchanged with the XNU kernel for
fake-ethernet interfaces (`struct if_fake_media`, `struct if_fake_request`) and
for bridge members (`struct ifbreq`, `struct ifbifconf`).

The embedding has three layers.

* `CType`, `Member`, `sizeof`, `alignof`, `struct_offsets`, `struct_type`,
  `union_type`: the C object model the declarations are read in (size and
  alignment of scalar types, array types, sequential struct layout with
  alignment padding, overlapping union layout, `#pragma pack`).
* The declarations themselves, translated member by member in source order.
  What the headers take from system headers (`IFNAMSIZ`, the pointer width) is
  a parameter, collected in `Target`.
* Object representations as byte lists, with the accessors the headers define
  as macros (`iffr_media`, `iffr_peer_name`, `iffr_dequeue_stall`, `ifbic_buf`,
  `ifbic_req`) as reads and writes at the member's offset.  Scalars are
  little-endian, as on the macOS targets (x86_64, arm64).

`if-fake.h` has no pack pragma of its own, so its structs are laid out in the
pack state of the including translation unit: none, or the `#pragma pack(4)`
that `if-bridge.h` leaves in effect when it is included first.  The layout
theorems of `if-fake.h` cover both.
-/

namespace VirtIf

/-! ## C object model -/

/-- What the headers take from the system headers of the compilation target:
`IFNAMSIZ` (from `<net/if.h>`, reached through `<net/if_var.h>`) and the size
and natural alignment of a data pointer (`caddr_t` is `char *`). -/
structure Target where
  IFNAMSIZ : Nat
  ptr_size : Nat
  ptr_align : Nat
deriving DecidableEq

/-- The 64-bit macOS targets: `IFNAMSIZ` is 16, pointers are 8 bytes, aligned 8. -/
def lp64 : Target := { IFNAMSIZ := 16, ptr_size := 8, ptr_align := 8 }

/-- State of `#pragma pack` at a declaration: `natural` when no pragma is in
effect, `packed n` after `#pragma pack(n)`. -/
inductive Pack where
  | natural
  | packed (n : Nat)
deriving DecidableEq

/-- The C types that occur in the two headers.  A struct or union that is used
as a member type enters as `aggregate size align`, with the size and alignment
its own declaration gave it. -/
inductive CType where
  | char
  | uint8_t
  | int32_t
  | uint32_t
  | uint64_t
  | pointer
  | array (elem : CType) (n : Nat)
  | aggregate (size : Nat) (align : Nat)
deriving DecidableEq

/-- A member declaration: its name and its type. -/
structure Member where
  name : String
  type : CType
deriving DecidableEq

/-- Value of `sizeof` on a type. -/
def sizeof (T : Target) : CType → Nat
  | .char => 1
  | .uint8_t => 1
  | .int32_t => 4
  | .uint32_t => 4
  | .uint64_t => 8
  | .pointer => T.ptr_size
  | .array e n => sizeof T e * n
  | .aggregate s _ => s

/-- Natural alignment of a type. -/
def alignof (T : Target) : CType → Nat
  | .char => 1
  | .uint8_t => 1
  | .int32_t => 4
  | .uint32_t => 4
  | .uint64_t => 8
  | .pointer => T.ptr_align
  | .array e _ => alignof T e
  | .aggregate _ a => a

/-- Alignment a member gets inside a struct or union: the natural alignment,
capped by the pack value when a `#pragma pack` is in effect. -/
def member_align (T : Target) : Pack → CType → Nat
  | .natural, t => alignof T t
  | .packed n, t => min (alignof T t) n

/-- Smallest multiple of `a` that is at least `x`. -/
def align_up (x a : Nat) : Nat := (x + a - 1) / a * a

/-- Offsets of the members of a struct laid out from byte `off` on, in
declaration order: each member goes to the next offset that satisfies its
alignment. -/
def struct_offsets_from (T : Target) (pk : Pack) (off : Nat) : List Member → List (String × Nat)
  | [] => []
  | m :: ms =>
    (m.name, align_up off (member_align T pk m.type)) ::
      struct_offsets_from T pk (align_up off (member_align T pk m.type) + sizeof T m.type) ms

/-- First byte after the last member of a struct laid out from byte `off` on. -/
def struct_end_from (T : Target) (pk : Pack) (off : Nat) : List Member → Nat
  | [] => off
  | m :: ms => struct_end_from T pk (align_up off (member_align T pk m.type) + sizeof T m.type) ms

/-- Alignment of a struct or union: the largest member alignment. -/
def members_align (T : Target) (pk : Pack) : List Member → Nat
  | [] => 1
  | m :: ms => max (member_align T pk m.type) (members_align T pk ms)

/-- Size of the largest member. -/
def members_max_size (T : Target) : List Member → Nat
  | [] => 0
  | m :: ms => max (sizeof T m.type) (members_max_size T ms)

/-- Offsets of the members of a struct. -/
def struct_offsets (T : Target) (pk : Pack) (ms : List Member) : List (String × Nat) :=
  struct_offsets_from T pk 0 ms

/-- Size of a struct: the end of its last member, padded to the struct's alignment. -/
def struct_size (T : Target) (pk : Pack) (ms : List Member) : Nat :=
  align_up (struct_end_from T pk 0 ms) (members_align T pk ms)

/-- Size of a union: its largest member, padded to the union's alignment. -/
def union_size (T : Target) (pk : Pack) (ms : List Member) : Nat :=
  align_up (members_max_size T ms) (members_align T pk ms)

/-- Offsets of the members of a union: every member starts at byte 0. -/
def union_offsets (ms : List Member) : List (String × Nat) :=
  ms.map fun m => (m.name, 0)

/-- A declared struct as a member type. -/
def struct_type (T : Target) (pk : Pack) (ms : List Member) : CType :=
  .aggregate (struct_size T pk ms) (members_align T pk ms)

/-- A declared union as a member type. -/
def union_type (T : Target) (pk : Pack) (ms : List Member) : CType :=
  .aggregate (union_size T pk ms) (members_align T pk ms)

/-- Value of `offsetof` for a member name, when the member exists. -/
def offsetof (offsets : List (String × Nat)) (name : String) : Option Nat :=
  (offsets.find? fun p => p.1 == name).map Prod.snd

/-- Byte ranges `(first, size)` of the members of a struct laid out from byte
`off` on, in declaration order. -/
def member_ranges (T : Target) (pk : Pack) (off : Nat) : List Member → List (Nat × Nat)
  | [] => []
  | m :: ms =>
    (align_up off (member_align T pk m.type), sizeof T m.type) ::
      member_ranges T pk (align_up off (member_align T pk m.type) + sizeof T m.type) ms

/-- Bytes of an object of the given size that belong to none of the ranges. -/
def padding_bytes (size : Nat) (ranges : List (Nat × Nat)) : List Nat :=
  (List.range size).filter fun i =>
    ranges.all fun r => !(decide (r.1 ≤ i) && decide (i < r.1 + r.2))

/-- Offset of `outer.inner`, for a member `outer` of a struct and a member
`inner` of the aggregate that `outer` is. -/
def path_offset (outer_offsets inner_offsets : List (String × Nat)) (outer inner : String) :
    Option Nat :=
  match offsetof outer_offsets outer, offsetof inner_offsets inner with
  | some a, some b => some (a + b)
  | _, _ => none

/-- Size of the member of that name, when it exists. -/
def member_size (T : Target) (ms : List Member) (name : String) : Option Nat :=
  (ms.find? fun m => m.name == name).map fun m => sizeof T m.type

/-- The top-level items of a header that bear on layout: pack pragmas and
struct declarations (other items leave the pack state alone). -/
inductive Item where
  | pragma_pack (n : Nat)
  | struct_decl (name : String)
  | other
deriving DecidableEq

/-- Pack state in effect where the struct of that name is declared, reading
the items in order from the pack state `pk` the header is entered with. -/
def pack_at (pk : Pack) : List Item → String → Option Pack
  | [], _ => none
  | .pragma_pack n :: rest, name => pack_at (.packed n) rest name
  | .struct_decl s :: rest, name => if s == name then some pk else pack_at pk rest name
  | .other :: rest, name => pack_at pk rest name

/-- Pack state a header leaves behind for what follows it in the translation unit. -/
def pack_after (pk : Pack) : List Item → Pack
  | [] => pk
  | .pragma_pack n :: rest => pack_after (.packed n) rest
  | _ :: rest => pack_after pk rest

/-! ## Object representations -/

/-- Little-endian representation of an unsigned value in `w` bytes (the value
is taken modulo `256 ^ w`). -/
def encode_le : Nat → Nat → List Nat
  | 0, _ => []
  | w + 1, v => v % 256 :: encode_le w (v / 256)

/-- Unsigned value of a little-endian byte sequence. -/
def decode_le : List Nat → Nat
  | [] => 0
  | b :: bs => b + 256 * decode_le bs

/-- Representation of a `uint32_t`. -/
def enc_u32 (v : Nat) : List Nat := encode_le 4 v

/-- Representation of an `int32_t` (two's complement). -/
def enc_i32 (v : Int) : List Nat := encode_le 4 (v % 4294967296).toNat

/-- Representation of an array of `n` elements: the first `n` entries of the
list, missing entries taken as `dflt`. -/
def encode_array {α : Type} (enc : α → List Nat) (dflt : α) : Nat → List α → List Nat
  | 0, _ => []
  | n + 1, [] => enc dflt ++ encode_array enc dflt n []
  | n + 1, x :: xs => enc x ++ encode_array enc dflt n xs

/-- The `len` bytes of an object from byte `off` on. -/
def read_bytes (obj : List Nat) (off len : Nat) : List Nat :=
  (obj.drop off).take len

/-- The object with the bytes `bs` stored from byte `off` on. -/
def write_bytes (obj : List Nat) (off : Nat) (bs : List Nat) : List Nat :=
  obj.take off ++ bs ++ obj.drop (off + bs.length)

/-! ## `virt/if-fake.h` -/

/-- Command tag of the set path (`SIOCSDRVSPEC`). -/
def IF_FAKE_S_CMD_NONE : Nat := 0
/-- Command tag of the set path (`SIOCSDRVSPEC`). -/
def IF_FAKE_S_CMD_SET_PEER : Nat := 1
/-- Command tag of the set path (`SIOCSDRVSPEC`). -/
def IF_FAKE_S_CMD_SET_MEDIA : Nat := 2
/-- Command tag of the set path (`SIOCSDRVSPEC`). -/
def IF_FAKE_S_CMD_SET_DEQUEUE_STALL : Nat := 3

/-- Command tag of the get path (`SIOCGDRVSPEC`). -/
def IF_FAKE_G_CMD_NONE : Nat := 0
/-- Command tag of the get path (`SIOCGDRVSPEC`). -/
def IF_FAKE_G_CMD_GET_PEER : Nat := 1

/-- The enumerators of the set-path enum, in declaration order. -/
def if_fake_s_cmds : List (String × Nat) :=
  [("IF_FAKE_S_CMD_NONE", IF_FAKE_S_CMD_NONE),
   ("IF_FAKE_S_CMD_SET_PEER", IF_FAKE_S_CMD_SET_PEER),
   ("IF_FAKE_S_CMD_SET_MEDIA", IF_FAKE_S_CMD_SET_MEDIA),
   ("IF_FAKE_S_CMD_SET_DEQUEUE_STALL", IF_FAKE_S_CMD_SET_DEQUEUE_STALL)]

/-- The enumerators of the get-path enum, in declaration order. -/
def if_fake_g_cmds : List (String × Nat) :=
  [("IF_FAKE_G_CMD_NONE", IF_FAKE_G_CMD_NONE),
   ("IF_FAKE_G_CMD_GET_PEER", IF_FAKE_G_CMD_GET_PEER)]

/-- Capacity of the media list. -/
def IF_FAKE_MEDIA_LIST_MAX : Nat := 27

/-- Members of `struct if_fake_media`. -/
def if_fake_media : List Member :=
  [⟨"iffm_current", .int32_t⟩,
   ⟨"iffm_count", .uint32_t⟩,
   ⟨"iffm_reserved", .array .uint32_t 3⟩,
   ⟨"iffm_list", .array .int32_t IF_FAKE_MEDIA_LIST_MAX⟩]

/-- Members of the union `iffr_u` of `struct if_fake_request`. -/
def iffr_u (T : Target) (pk : Pack) : List Member :=
  [⟨"iffru_buf", .array .char 128⟩,
   ⟨"iffru_media", struct_type T pk if_fake_media⟩,
   ⟨"iffru_peer_name", .array .char T.IFNAMSIZ⟩,
   ⟨"iffru_dequeue_stall", .uint32_t⟩]

/-- Members of `struct if_fake_request`. -/
def if_fake_request (T : Target) (pk : Pack) : List Member :=
  [⟨"iffr_reserved", .array .uint64_t 4⟩,
   ⟨"iffr_u", union_type T pk (iffr_u T pk)⟩]

/-- The layout-relevant items of `if-fake.h`: two enums, a macro, two structs,
and no pack pragma. -/
def if_fake_h : List Item :=
  [.other, .other, .other, .struct_decl "if_fake_media", .struct_decl "if_fake_request"]

/-- A value of `struct if_fake_media`. -/
structure if_fake_media_val where
  iffm_current : Int
  iffm_count : Nat
  iffm_reserved : List Nat
  iffm_list : List Int
deriving DecidableEq

/-- Object representation of a `struct if_fake_media` value: its members in
declaration order (the struct has no padding). -/
def encode_if_fake_media (m : if_fake_media_val) : List Nat :=
  enc_i32 m.iffm_current ++ enc_u32 m.iffm_count ++
    encode_array enc_u32 0 3 m.iffm_reserved ++
    encode_array enc_i32 0 IF_FAKE_MEDIA_LIST_MAX m.iffm_list

/-- Offset of a member of the union `iffr_u` inside `struct if_fake_request`
(0 when there is no such member). -/
def iffr_u_offset (T : Target) (pk : Pack) (arm : String) : Nat :=
  (path_offset (struct_offsets T pk (if_fake_request T pk)) (union_offsets (iffr_u T pk))
    "iffr_u" arm).getD 0

/-- Assignment to `iffr_media` (that is `iffr_u.iffru_media`) of a request. -/
def write_iffr_media (T : Target) (pk : Pack) (req : List Nat) (m : if_fake_media_val) :
    List Nat :=
  write_bytes req (iffr_u_offset T pk "iffru_media") (encode_if_fake_media m)

/-- Read of `iffr_media` (that is `iffr_u.iffru_media`) of a request, as bytes. -/
def read_iffr_media (T : Target) (pk : Pack) (req : List Nat) : List Nat :=
  read_bytes req (iffr_u_offset T pk "iffru_media")
    ((member_size T (iffr_u T pk) "iffru_media").getD 0)

/-- Read of `iffr_peer_name` (that is `iffr_u.iffru_peer_name`) of a request. -/
def read_iffr_peer_name (T : Target) (pk : Pack) (req : List Nat) : List Nat :=
  read_bytes req (iffr_u_offset T pk "iffru_peer_name")
    ((member_size T (iffr_u T pk) "iffru_peer_name").getD 0)

/-- Read of `iffr_dequeue_stall` (that is `iffr_u.iffru_dequeue_stall`) of a request. -/
def read_iffr_dequeue_stall (T : Target) (pk : Pack) (req : List Nat) : Nat :=
  decode_le (read_bytes req (iffr_u_offset T pk "iffru_dequeue_stall")
    ((member_size T (iffr_u T pk) "iffru_dequeue_stall").getD 0))

/-- The commands of the fake-interface request. -/
inductive FakeInterfaceCommand where
  | SetPeer
  | SetMedia
  | SetDequeueStall
  | GetPeer
deriving DecidableEq

/-- Modelled from the spec: the header declares the tags and the union arms but
not which arm a tag selects; the data model gives `SetPeer(interfaceName)`,
`SetMedia(mediaSelection)`, `SetDequeueStall(bool)` and `GetPeer → interfaceName`. -/
def command_arm : FakeInterfaceCommand → String
  | .SetPeer => "iffru_peer_name"
  | .SetMedia => "iffru_media"
  | .SetDequeueStall => "iffru_dequeue_stall"
  | .GetPeer => "iffru_peer_name"

/-- Errors of the fake-interface manager. -/
inductive FakeInterfaceError where
  | TooManyMediaEntries
deriving DecidableEq

/-- Modelled from the spec: `setMedia(name, currentSelection, mediaList)` of the
fake-interface manager is not in the repository, which has only the descriptor
it fills (`struct if_fake_media`, `IF_FAKE_MEDIA_LIST_MAX`).  It fails with
`TooManyMediaEntries` if the list exceeds the fixed capacity, and otherwise
fills the descriptor: current selection, count, zeroed reserved words, and the
list in the first `count` slots of the 27-slot array.  The interface name only
selects the control channel the descriptor is sent on and is left out. -/
def setMedia (currentSelection : Int) (mediaList : List Int) :
    Except FakeInterfaceError if_fake_media_val :=
  if mediaList.length > IF_FAKE_MEDIA_LIST_MAX then
    .error .TooManyMediaEntries
  else
    .ok { iffm_current := currentSelection
          iffm_count := mediaList.length
          iffm_reserved := [0, 0, 0]
          iffm_list := mediaList ++ List.replicate (IF_FAKE_MEDIA_LIST_MAX - mediaList.length) 0 }

/-! ## `virt/if-bridge.h` -/

/-- The pack state of `if-bridge.h` from its line 9 on: `#pragma pack(4)`,
with no later `#pragma pack` in the file. -/
def bridge_pack : Pack := .packed 4

/-- Members of `struct ifbreq`. -/
def ifbreq (T : Target) : List Member :=
  [⟨"ifbr_ifsname", .array .char T.IFNAMSIZ⟩,
   ⟨"ifbr_ifsflags", .uint32_t⟩,
   ⟨"ifbr_stpflags", .uint32_t⟩,
   ⟨"ifbr_path_cost", .uint32_t⟩,
   ⟨"ifbr_portno", .uint8_t⟩,
   ⟨"ifbr_priority", .uint8_t⟩,
   ⟨"ifbr_proto", .uint8_t⟩,
   ⟨"ifbr_role", .uint8_t⟩,
   ⟨"ifbr_state", .uint8_t⟩,
   ⟨"ifbr_addrcnt", .uint32_t⟩,
   ⟨"ifbr_addrmax", .uint32_t⟩,
   ⟨"ifbr_addrexceeded", .uint32_t⟩,
   ⟨"pad", .array .uint8_t 32⟩]

/-- Members of the union `ifbic_ifbicu` of `struct ifbifconf`. -/
def ifbic_ifbicu : List Member :=
  [⟨"ifbicu_buf", .pointer⟩,
   ⟨"ifbicu_req", .pointer⟩]

/-- Members of `struct ifbifconf`. -/
def ifbifconf (T : Target) (pk : Pack) : List Member :=
  [⟨"ifbic_len", .uint32_t⟩,
   ⟨"ifbic_ifbicu", union_type T pk ifbic_ifbicu⟩]

/-- The layout-relevant items of `if-bridge.h`: `#pragma pack(4)`, then the two
structs; the pragma is not followed by another one. -/
def if_bridge_h : List Item :=
  [.pragma_pack 4, .struct_decl "ifbreq", .struct_decl "ifbifconf"]

/-- The member types of the bridge member record as the interface description
words them: the name field, four 32-bit fields, five 8-bit fields, three 32-bit
counters, and the 32-byte reserved tail. -/
def spec_ifbreq_types (T : Target) : List CType :=
  [.array .char T.IFNAMSIZ] ++ List.replicate 4 .uint32_t ++ List.replicate 5 .uint8_t ++
    List.replicate 3 .uint32_t ++ [.array .uint8_t 32]

/-- Offset of a member of the union `ifbic_ifbicu` inside `struct ifbifconf`
(0 when there is no such member). -/
def ifbic_offset (T : Target) (pk : Pack) (arm : String) : Nat :=
  (path_offset (struct_offsets T pk (ifbifconf T pk)) (union_offsets ifbic_ifbicu)
    "ifbic_ifbicu" arm).getD 0

/-- Assignment of a pointer value to `ifbic_buf` (that is `ifbic_ifbicu.ifbicu_buf`). -/
def store_ifbic_buf (T : Target) (pk : Pack) (obj : List Nat) (p : Nat) : List Nat :=
  write_bytes obj (ifbic_offset T pk "ifbicu_buf")
    (encode_le ((member_size T ifbic_ifbicu "ifbicu_buf").getD 0) p)

/-- Assignment of a pointer value to `ifbic_req` (that is `ifbic_ifbicu.ifbicu_req`). -/
def store_ifbic_req (T : Target) (pk : Pack) (obj : List Nat) (p : Nat) : List Nat :=
  write_bytes obj (ifbic_offset T pk "ifbicu_req")
    (encode_le ((member_size T ifbic_ifbicu "ifbicu_req").getD 0) p)

/-- Read of the pointer value `ifbic_buf`. -/
def load_ifbic_buf (T : Target) (pk : Pack) (obj : List Nat) : Nat :=
  decode_le (read_bytes obj (ifbic_offset T pk "ifbicu_buf")
    ((member_size T ifbic_ifbicu "ifbicu_buf").getD 0))

/-- Read of the pointer value `ifbic_req`. -/
def load_ifbic_req (T : Target) (pk : Pack) (obj : List Nat) : Nat :=
  decode_le (read_bytes obj (ifbic_offset T pk "ifbicu_req")
    ((member_size T ifbic_ifbicu "ifbicu_req").getD 0))

/-- Offset of the member `ifbic_len` inside `struct ifbifconf` (0 when there is
no such member). -/
def ifbic_len_offset (T : Target) (pk : Pack) : Nat :=
  (offsetof (struct_offsets T pk (ifbifconf T pk)) "ifbic_len").getD 0

/-- Assignment to `ifbic_len`. -/
def store_ifbic_len (T : Target) (pk : Pack) (obj : List Nat) (n : Nat) : List Nat :=
  write_bytes obj (ifbic_len_offset T pk)
    (encode_le ((member_size T (ifbifconf T pk) "ifbic_len").getD 0) n)

/-- Read of `ifbic_len`. -/
def load_ifbic_len (T : Target) (pk : Pack) (obj : List Nat) : Nat :=
  decode_le (read_bytes obj (ifbic_len_offset T pk)
    ((member_size T (ifbifconf T pk) "ifbic_len").getD 0))

/-! ## Facts about the object model -/

theorem le_align_up (x a : Nat) (h : 0 < a) : x ≤ align_up x a := by
  unfold align_up
  have h1 := Nat.div_add_mod (x + a - 1) a
  have h2 := Nat.mod_lt (x + a - 1) h
  have h3 : a * ((x + a - 1) / a) = (x + a - 1) / a * a := Nat.mul_comm _ _
  omega

theorem member_align_packed_of_le (T : Target) (n : Nat) (t : CType) (h : alignof T t ≤ n) :
    member_align T (.packed n) t = member_align T .natural t := by
  simp only [member_align]
  exact Nat.min_eq_left h

/-- A struct none of whose members has a natural alignment above the pack value
has the same member offsets with and without the pragma. -/
theorem struct_offsets_from_packed_eq (T : Target) (n : Nat) (ms : List Member)
    (h : ∀ m ∈ ms, alignof T m.type ≤ n) (off : Nat) :
    struct_offsets_from T (.packed n) off ms = struct_offsets_from T .natural off ms := by
  induction ms generalizing off with
  | nil => rfl
  | cons m ms ih =>
    have hm := member_align_packed_of_le T n m.type (h m (List.mem_cons_self _ _))
    have ih2 := fun o => ih (fun x hx => h x (List.mem_cons_of_mem _ hx)) o
    simp only [struct_offsets_from, hm, ih2]

theorem struct_end_from_packed_eq (T : Target) (n : Nat) (ms : List Member)
    (h : ∀ m ∈ ms, alignof T m.type ≤ n) (off : Nat) :
    struct_end_from T (.packed n) off ms = struct_end_from T .natural off ms := by
  induction ms generalizing off with
  | nil => rfl
  | cons m ms ih =>
    have hm := member_align_packed_of_le T n m.type (h m (List.mem_cons_self _ _))
    have ih2 := fun o => ih (fun x hx => h x (List.mem_cons_of_mem _ hx)) o
    simp only [struct_end_from, hm, ih2]

theorem member_ranges_packed_eq (T : Target) (n : Nat) (ms : List Member)
    (h : ∀ m ∈ ms, alignof T m.type ≤ n) (off : Nat) :
    member_ranges T (.packed n) off ms = member_ranges T .natural off ms := by
  induction ms generalizing off with
  | nil => rfl
  | cons m ms ih =>
    have hm := member_align_packed_of_le T n m.type (h m (List.mem_cons_self _ _))
    have ih2 := fun o => ih (fun x hx => h x (List.mem_cons_of_mem _ hx)) o
    simp only [member_ranges, hm, ih2]

theorem members_align_packed_eq (T : Target) (n : Nat) (ms : List Member)
    (h : ∀ m ∈ ms, alignof T m.type ≤ n) :
    members_align T (.packed n) ms = members_align T .natural ms := by
  induction ms with
  | nil => rfl
  | cons m ms ih =>
    have hm := member_align_packed_of_le T n m.type (h m (List.mem_cons_self _ _))
    have ih2 := ih (fun x hx => h x (List.mem_cons_of_mem _ hx))
    simp only [members_align, hm, ih2]

theorem ifbreq_alignof_le (T : Target) : ∀ m ∈ ifbreq T, alignof T m.type ≤ 4 := by
  intro m hm
  simp only [ifbreq, List.mem_cons, List.mem_singleton, List.not_mem_nil, or_false] at hm
  rcases hm with h | h | h | h | h | h | h | h | h | h | h | h | h <;> subst h <;>
    simp [alignof]

theorem iffr_u_max_size (T : Target) (pk : Pack) (hT : T.IFNAMSIZ ≤ 128)
    (hpk : pk = Pack.natural ∨ pk = Pack.packed 4) :
    members_max_size T (iffr_u T pk) = 128 := by
  rcases hpk with rfl | rfl <;>
    simp [iffr_u, members_max_size, members_align, member_align, sizeof, alignof,
      struct_type, struct_size, struct_end_from, if_fake_media, align_up,
      IF_FAKE_MEDIA_LIST_MAX] <;> omega

theorem iffr_u_align (T : Target) (pk : Pack)
    (hpk : pk = Pack.natural ∨ pk = Pack.packed 4) :
    members_align T pk (iffr_u T pk) = 4 := by
  rcases hpk with rfl | rfl <;>
    simp [iffr_u, members_align, member_align, alignof, struct_type, if_fake_media]

theorem iffr_u_size (T : Target) (pk : Pack) (hT : T.IFNAMSIZ ≤ 128)
    (hpk : pk = Pack.natural ∨ pk = Pack.packed 4) :
    union_size T pk (iffr_u T pk) = 128 := by
  simp [union_size, iffr_u_max_size T pk hT hpk, iffr_u_align T pk hpk, align_up]

theorem align_up_zero (a : Nat) : align_up 0 a = 0 := by
  unfold align_up
  rcases Nat.eq_zero_or_pos a with h | h
  · subst h; rfl
  · have : (0 + a - 1) / a = 0 := Nat.div_eq_of_lt (by omega)
    rw [this, Nat.zero_mul]

theorem members_align_pos (T : Target) (pk : Pack) (ms : List Member) :
    0 < members_align T pk ms := by
  induction ms with
  | nil => simp [members_align]
  | cons m ms ih =>
    simp only [members_align]
    omega

theorem length_encode_le (w v : Nat) : (encode_le w v).length = w := by
  induction w generalizing v with
  | zero => rfl
  | succ w ih => simp [encode_le, ih]

theorem decode_encode_le (w v : Nat) : decode_le (encode_le w v) = v % 256 ^ w := by
  induction w generalizing v with
  | zero => simp [encode_le, decode_le, Nat.mod_one]
  | succ w ih =>
    simp only [encode_le, decode_le, ih]
    rw [Nat.pow_succ, Nat.mul_comm (256 ^ w) 256, Nat.mod_mul]

theorem read_write_bytes_take (obj : List Nat) (off : Nat) (bs : List Nat) (n : Nat)
    (hoff : off ≤ obj.length) (hn : n ≤ bs.length) :
    read_bytes (write_bytes obj off bs) off n = bs.take n := by
  unfold read_bytes write_bytes
  have hl : (obj.take off).length = off := by simp [hoff]
  have hd : (obj.take off).drop off = [] := List.drop_eq_nil_of_le (by omega)
  rw [List.append_assoc, List.drop_append_of_le_length (by omega), hd, List.nil_append,
    List.take_append_of_le_length hn]

theorem read_write_bytes (obj : List Nat) (off : Nat) (bs : List Nat)
    (hoff : off ≤ obj.length) :
    read_bytes (write_bytes obj off bs) off bs.length = bs := by
  rw [read_write_bytes_take obj off bs bs.length hoff (Nat.le_refl _), List.take_length]

theorem length_encode_array {α : Type} (enc : α → List Nat) (dflt : α) (k : Nat)
    (henc : ∀ x, (enc x).length = k) (n : Nat) (xs : List α) :
    (encode_array enc dflt n xs).length = k * n := by
  induction n generalizing xs with
  | zero => cases xs <;> simp [encode_array]
  | succ n ih =>
    cases xs with
    | nil => simp [encode_array, henc, ih, Nat.mul_succ, Nat.add_comm]
    | cons x xs => simp [encode_array, henc, ih, Nat.mul_succ, Nat.add_comm]

theorem length_encode_if_fake_media (m : if_fake_media_val) :
    (encode_if_fake_media m).length = 128 := by
  have h1 : ∀ x, (enc_u32 x).length = 4 := fun x => length_encode_le 4 x
  have h2 : ∀ x, (enc_i32 x).length = 4 := fun x => length_encode_le 4 _
  simp [encode_if_fake_media, h1, h2, length_encode_array enc_u32 0 4 h1,
    length_encode_array enc_i32 0 4 h2, IF_FAKE_MEDIA_LIST_MAX]

theorem length_write_bytes (obj : List Nat) (off : Nat) (bs : List Nat)
    (h : off + bs.length ≤ obj.length) : (write_bytes obj off bs).length = obj.length := by
  unfold write_bytes
  simp only [List.length_append, List.length_take, List.length_drop]
  omega

/-- A store leaves the bytes before it as they were. -/
theorem read_write_bytes_before (obj : List Nat) (off : Nat) (bs : List Nat) (off2 n : Nat)
    (h : off2 + n ≤ off) (hoff : off ≤ obj.length) :
    read_bytes (write_bytes obj off bs) off2 n = read_bytes obj off2 n := by
  unfold read_bytes write_bytes
  have hl : (obj.take off).length = off := by simp [hoff]
  rw [List.append_assoc, List.drop_append_of_le_length (by omega),
    List.take_append_of_le_length (by simp only [List.length_drop, hl]; omega)]
  rw [List.drop_take, List.take_take]
  congr 1
  omega

/-- A store leaves the bytes after it as they were. -/
theorem read_write_bytes_after (obj : List Nat) (off : Nat) (bs : List Nat) (off2 n : Nat)
    (h : off + bs.length ≤ off2) (hlen : off + bs.length ≤ obj.length) :
    read_bytes (write_bytes obj off bs) off2 n = read_bytes obj off2 n := by
  unfold read_bytes write_bytes
  have hl : (obj.take off ++ bs).length = off + bs.length := by
    simp only [List.length_append, List.length_take]
    omega
  have hd : (obj.take off ++ bs).drop off2 = [] := List.drop_eq_nil_of_le (by omega)
  rw [List.drop_append_eq_append_drop, hd, List.nil_append, hl, List.drop_drop]
  congr 2
  omega

theorem ifbic_offset_eq (T : Target) (pk : Pack) :
    ifbic_offset T pk "ifbicu_buf" =
        align_up 4 (member_align T pk (union_type T pk ifbic_ifbicu)) ∧
      ifbic_offset T pk "ifbicu_req" =
        align_up 4 (member_align T pk (union_type T pk ifbic_ifbicu)) := by
  constructor <;>
    simp [ifbic_offset, path_offset, offsetof, struct_offsets, struct_offsets_from, ifbifconf,
      union_offsets, ifbic_ifbicu, align_up_zero, sizeof]

theorem ifbic_union_align_pos (T : Target) (pk : Pack)
    (hpk : pk = Pack.natural ∨ pk = Pack.packed 4) :
    0 < member_align T pk (union_type T pk ifbic_ifbicu) := by
  have h := members_align_pos T pk ifbic_ifbicu
  rcases hpk with rfl | rfl
  · simpa [member_align, union_type, alignof] using h
  · simp only [member_align, union_type, alignof]
    omega

theorem ifbic_union_offset (T : Target) (pk : Pack) :
    offsetof (struct_offsets T pk (ifbifconf T pk)) "ifbic_ifbicu" =
      some (align_up 4 (member_align T pk (union_type T pk ifbic_ifbicu))) := by
  simp [offsetof, struct_offsets, struct_offsets_from, ifbifconf, align_up_zero, sizeof]

theorem ifbic_len_place (T : Target) (pk : Pack) :
    ifbic_len_offset T pk = 0 ∧ member_size T (ifbifconf T pk) "ifbic_len" = some 4 := by
  constructor
  · simp [ifbic_len_offset, offsetof, struct_offsets, struct_offsets_from, ifbifconf,
      align_up_zero]
  · simp [member_size, ifbifconf, sizeof]

theorem ifbic_ranges (T : Target) (pk : Pack) :
    member_ranges T pk 0 (ifbifconf T pk) =
      [(0, 4), (align_up 4 (member_align T pk (union_type T pk ifbic_ifbicu)),
        union_size T pk ifbic_ifbicu)] := by
  simp [member_ranges, ifbifconf, align_up_zero, sizeof, union_type]

theorem ifbic_arm_end_le_size (T : Target) (pk : Pack) :
    align_up 4 (member_align T pk (union_type T pk ifbic_ifbicu)) + T.ptr_size ≤
      struct_size T pk (ifbifconf T pk) := by
  have hpos : 0 < members_align T pk (ifbifconf T pk) := members_align_pos T pk _
  have hupos : 0 < members_align T pk ifbic_ifbicu := members_align_pos T pk _
  have hend : struct_end_from T pk 0 (ifbifconf T pk) =
      align_up 4 (member_align T pk (union_type T pk ifbic_ifbicu)) +
        union_size T pk ifbic_ifbicu := by
    simp [struct_end_from, ifbifconf, align_up_zero, sizeof, union_type]
  have hmax : members_max_size T ifbic_ifbicu = T.ptr_size := by
    simp [members_max_size, ifbic_ifbicu, sizeof]
  have hu : T.ptr_size ≤ union_size T pk ifbic_ifbicu := by
    unfold union_size
    rw [hmax]
    exact le_align_up _ _ hupos
  have := le_align_up (struct_end_from T pk 0 (ifbifconf T pk)) _ hpos
  unfold struct_size
  omega

theorem if_fake_request_offsets (T : Target) (pk : Pack)
    (hpk : pk = Pack.natural ∨ pk = Pack.packed 4) :
    struct_offsets T pk (if_fake_request T pk) = [("iffr_reserved", 0), ("iffr_u", 32)] := by
  have ha := iffr_u_align T pk hpk
  rcases hpk with rfl | rfl <;>
    simp [struct_offsets, struct_offsets_from, if_fake_request, union_type, ha, member_align,
      sizeof, alignof, align_up]

theorem if_fake_request_size (T : Target) (pk : Pack) (hT : T.IFNAMSIZ ≤ 128)
    (hpk : pk = Pack.natural ∨ pk = Pack.packed 4) :
    struct_size T pk (if_fake_request T pk) = 160 := by
  have hs := iffr_u_size T pk hT hpk
  have ha := iffr_u_align T pk hpk
  rcases hpk with rfl | rfl <;>
    simp [struct_size, struct_end_from, members_align, if_fake_request, union_type, ha, hs,
      member_align, sizeof, alignof, align_up]

theorem iffr_u_offsets (T : Target) (pk : Pack)
    (hpk : pk = Pack.natural ∨ pk = Pack.packed 4) :
    iffr_u_offset T pk "iffru_buf" = 32 ∧ iffr_u_offset T pk "iffru_media" = 32 ∧
      iffr_u_offset T pk "iffru_peer_name" = 32 ∧
      iffr_u_offset T pk "iffru_dequeue_stall" = 32 := by
  simp only [iffr_u_offset, if_fake_request_offsets T pk hpk]
  simp [iffr_u, union_offsets, path_offset, offsetof]

theorem iffru_media_size (T : Target) (pk : Pack)
    (hpk : pk = Pack.natural ∨ pk = Pack.packed 4) :
    member_size T (iffr_u T pk) "iffru_media" = some 128 := by
  rcases hpk with rfl | rfl <;>
    simp [member_size, iffr_u, sizeof, struct_type, struct_size, struct_end_from,
      members_align, member_align, alignof, if_fake_media, align_up, IF_FAKE_MEDIA_LIST_MAX]

/-! ## The claims -/

/-- C1: the command tags of the set path are NONE=0, SET_PEER=1, SET_MEDIA=2,
SET_DEQUEUE_STALL=3 and those of the get path are NONE=0, GET_PEER=1; within
each path the tag values are pairwise distinct. -/
theorem if_fake_cmd_values :
    if_fake_s_cmds =
        [("IF_FAKE_S_CMD_NONE", 0), ("IF_FAKE_S_CMD_SET_PEER", 1),
         ("IF_FAKE_S_CMD_SET_MEDIA", 2), ("IF_FAKE_S_CMD_SET_DEQUEUE_STALL", 3)] ∧
      if_fake_g_cmds = [("IF_FAKE_G_CMD_NONE", 0), ("IF_FAKE_G_CMD_GET_PEER", 1)] ∧
      IF_FAKE_S_CMD_NONE = 0 ∧ IF_FAKE_S_CMD_SET_PEER = 1 ∧ IF_FAKE_S_CMD_SET_MEDIA = 2 ∧
      IF_FAKE_S_CMD_SET_DEQUEUE_STALL = 3 ∧ IF_FAKE_G_CMD_NONE = 0 ∧
      IF_FAKE_G_CMD_GET_PEER = 1 ∧
      (if_fake_s_cmds.map Prod.snd).Pairwise (· ≠ ·) ∧
      (if_fake_g_cmds.map Prod.snd).Pairwise (· ≠ ·) := by
  refine ⟨rfl, rfl, rfl, rfl, rfl, rfl, rfl, rfl, ?_, ?_⟩ <;> decide

/-- C3: on every target, with no pack pragma and under `#pragma pack(4)` alike,
`struct if_fake_media` is a signed 32-bit current selection at offset 0, an
unsigned 32-bit count at offset 4, three reserved 32-bit words at offsets 8..19
and IF_FAKE_MEDIA_LIST_MAX = 27 signed 32-bit identifiers at offsets 20..127;
its size is 4 + 4 + 3*4 + 27*4 = 128 bytes, the size of the 128-byte raw arm of
the union, so that no byte of the union region is left over. -/
theorem if_fake_media_layout (T : Target) :
    if_fake_media.map Member.type =
        [.int32_t, .uint32_t, .array .uint32_t 3, .array .int32_t 27] ∧
      IF_FAKE_MEDIA_LIST_MAX = 27 ∧
      (∀ pk, pack_at pk if_fake_h "if_fake_media" = some pk) ∧
      (∀ pk, pk = Pack.natural ∨ pk = Pack.packed 4 →
        struct_offsets T pk if_fake_media =
            [("iffm_current", 0), ("iffm_count", 4), ("iffm_reserved", 8), ("iffm_list", 20)] ∧
          member_ranges T pk 0 if_fake_media = [(0, 4), (4, 4), (8, 12), (20, 108)] ∧
          struct_size T pk if_fake_media = 4 + 4 + 3 * 4 + 27 * 4 ∧
          struct_size T pk if_fake_media = 128 ∧
          struct_size T pk if_fake_media = sizeof T (.array .char 128)) := by
  refine ⟨rfl, rfl, fun pk => by simp [pack_at, if_fake_h], ?_⟩
  rintro pk (rfl | rfl) <;>
    simp [struct_offsets, struct_offsets_from, member_ranges, struct_size, struct_end_from,
      members_align, member_align, sizeof, alignof, if_fake_media, align_up,
      IF_FAKE_MEDIA_LIST_MAX]

theorem if_fake_media_layout_witness :
    struct_offsets lp64 Pack.natural if_fake_media =
        [("iffm_current", 0), ("iffm_count", 4), ("iffm_reserved", 8), ("iffm_list", 20)] ∧
      struct_size lp64 (Pack.packed 4) if_fake_media = 128 :=
  ⟨((if_fake_media_layout lp64).2.2.2 Pack.natural (Or.inl rfl)).1,
   ((if_fake_media_layout lp64).2.2.2 (Pack.packed 4) (Or.inr rfl)).2.2.2.1⟩

/-- C2: with `IFNAMSIZ` at most 128, with no pack pragma and under
`#pragma pack(4)` alike, `struct if_fake_request` is four reserved 64-bit words
in bytes 0..31, then the union at offset 32, of size 128, for a total of 160
bytes; every arm of the union starts at offset 32. -/
theorem if_fake_request_layout (T : Target) (pk : Pack) (hT : T.IFNAMSIZ ≤ 128)
    (hpk : pk = Pack.natural ∨ pk = Pack.packed 4) :
    pack_at pk if_fake_h "if_fake_request" = some pk ∧
      (if_fake_request T pk).map Member.name = ["iffr_reserved", "iffr_u"] ∧
      (if_fake_request T pk).head?.map Member.type = some (.array .uint64_t 4) ∧
      struct_offsets T pk (if_fake_request T pk) = [("iffr_reserved", 0), ("iffr_u", 32)] ∧
      member_ranges T pk 0 (if_fake_request T pk) = [(0, 32), (32, 128)] ∧
      union_size T pk (iffr_u T pk) = 128 ∧
      struct_size T pk (if_fake_request T pk) = 160 ∧
      (iffr_u T pk).map (fun m => (m.name, iffr_u_offset T pk m.name)) =
        [("iffru_buf", 32), ("iffru_media", 32), ("iffru_peer_name", 32),
         ("iffru_dequeue_stall", 32)] := by
  have hs := iffr_u_size T pk hT hpk
  have ha := iffr_u_align T pk hpk
  have ho := iffr_u_offsets T pk hpk
  refine ⟨by simp [pack_at, if_fake_h], rfl, rfl, if_fake_request_offsets T pk hpk, ?_, hs,
    if_fake_request_size T pk hT hpk, ?_⟩
  · rcases hpk with rfl | rfl <;>
      simp [member_ranges, if_fake_request, union_type, ha, hs, member_align,
        sizeof, alignof, align_up]
  · simp [iffr_u, ho.1, ho.2.1, ho.2.2.1, ho.2.2.2]

theorem if_fake_request_layout_witness :
    struct_offsets lp64 Pack.natural (if_fake_request lp64 Pack.natural) =
        [("iffr_reserved", 0), ("iffr_u", 32)] ∧
      union_size lp64 Pack.natural (iffr_u lp64 Pack.natural) = 128 ∧
      struct_size lp64 Pack.natural (if_fake_request lp64 Pack.natural) = 160 :=
  have h := if_fake_request_layout lp64 Pack.natural (by decide) (Or.inl rfl)
  ⟨h.2.2.2.1, h.2.2.2.2.2.1, h.2.2.2.2.2.2.1⟩

/-- C4: with `IFNAMSIZ` = 16, with no pack pragma and under `#pragma pack(4)`
alike, the arm each command selects (SET_PEER, SET_MEDIA, SET_DEQUEUE_STALL,
GET_PEER) has size at most 128 bytes (peer name 16, media descriptor 128, stall
flag 4), and the union `iffr_u` has size 128 whichever arm is used: the size of
its largest arm, the 128-byte raw buffer `iffru_buf`. -/
theorem iffr_u_size_stable (T : Target) (pk : Pack) (hT : T.IFNAMSIZ = 16)
    (hpk : pk = Pack.natural ∨ pk = Pack.packed 4) :
    member_size T (iffr_u T pk) "iffru_peer_name" = some 16 ∧
      member_size T (iffr_u T pk) "iffru_media" = some 128 ∧
      member_size T (iffr_u T pk) "iffru_dequeue_stall" = some 4 ∧
      member_size T (iffr_u T pk) "iffru_buf" = some 128 ∧
      (∀ c : FakeInterfaceCommand, ∃ n,
        member_size T (iffr_u T pk) (command_arm c) = some n ∧ n ≤ 128 ∧
          n ≤ union_size T pk (iffr_u T pk)) ∧
      union_size T pk (iffr_u T pk) = 128 ∧
      members_max_size T (iffr_u T pk) = 128 ∧
      some (union_size T pk (iffr_u T pk)) = member_size T (iffr_u T pk) "iffru_buf" := by
  have hT2 : T.IFNAMSIZ ≤ 128 := by omega
  have hs := iffr_u_size T pk hT2 hpk
  have hm := iffr_u_max_size T pk hT2 hpk
  have hpeer : member_size T (iffr_u T pk) "iffru_peer_name" = some 16 := by
    simp [member_size, iffr_u, sizeof, hT]
  have hmedia := iffru_media_size T pk hpk
  have hstall : member_size T (iffr_u T pk) "iffru_dequeue_stall" = some 4 := by
    simp [member_size, iffr_u, sizeof]
  have hbuf : member_size T (iffr_u T pk) "iffru_buf" = some 128 := by
    simp [member_size, iffr_u, sizeof]
  refine ⟨hpeer, hmedia, hstall, hbuf, ?_, hs, hm, ?_⟩
  · intro c
    cases c
    · exact ⟨16, hpeer, by omega, by omega⟩
    · exact ⟨128, hmedia, by omega, by omega⟩
    · exact ⟨4, hstall, by omega, by omega⟩
    · exact ⟨16, hpeer, by omega, by omega⟩
  · rw [hs, hbuf]

theorem iffr_u_size_stable_witness :
    member_size lp64 (iffr_u lp64 Pack.natural) "iffru_peer_name" = some 16 ∧
      union_size lp64 Pack.natural (iffr_u lp64 Pack.natural) = 128 :=
  have h := iffr_u_size_stable lp64 Pack.natural rfl (Or.inl rfl)
  ⟨h.1, h.2.2.2.2.2.1⟩

/-- C5, as the description words it, fails: `struct ifbreq` has 13 members, not
the 14 of the description, and the member in fourth place after the name is the
8-bit `ifbr_portno`, where the description has a fourth 32-bit field. -/
theorem ifbreq_types_ne_spec :
    (ifbreq lp64).map Member.type ≠ spec_ifbreq_types lp64 ∧
      ((ifbreq lp64).map Member.type).length = 13 ∧
      (spec_ifbreq_types lp64).length = 14 ∧
      (ifbreq lp64)[4]? = some ⟨"ifbr_portno", .uint8_t⟩ ∧
      (spec_ifbreq_types lp64)[4]? = some .uint32_t := by
  decide

/-- C5, amended: `struct ifbreq` consists, in this order, of the interface-name
field of `IFNAMSIZ` characters, three 32-bit fields (flags, STP flags, path
cost), five 8-bit fields (port number, priority, protocol, role, state), three
32-bit counters (address count, address max, address-exceeded) and a 32-byte
reserved tail. -/
theorem ifbreq_member_order (T : Target) :
    (ifbreq T).map Member.type =
        [.array .char T.IFNAMSIZ] ++ List.replicate 3 .uint32_t ++ List.replicate 5 .uint8_t ++
          List.replicate 3 .uint32_t ++ [.array .uint8_t 32] ∧
      (ifbreq T).map Member.name =
        ["ifbr_ifsname", "ifbr_ifsflags", "ifbr_stpflags", "ifbr_path_cost",
         "ifbr_portno", "ifbr_priority", "ifbr_proto", "ifbr_role", "ifbr_state",
         "ifbr_addrcnt", "ifbr_addrmax", "ifbr_addrexceeded", "pad"] ∧
      (ifbreq T).map (fun m => sizeof T m.type) =
        [T.IFNAMSIZ, 4, 4, 4, 1, 1, 1, 1, 1, 4, 4, 4, 32] := by
  refine ⟨rfl, rfl, ?_⟩
  simp [ifbreq, sizeof]

theorem ifbreq_ranges (T : Target) (h : T.IFNAMSIZ = 16) :
    member_ranges T bridge_pack 0 (ifbreq T) =
      [(0, 16), (16, 4), (20, 4), (24, 4), (28, 1), (29, 1), (30, 1), (31, 1), (32, 1),
       (36, 4), (40, 4), (44, 4), (48, 32)] := by
  simp [member_ranges, ifbreq, bridge_pack, member_align, sizeof, alignof, align_up, h]

theorem ifbreq_size (T : Target) (h : T.IFNAMSIZ = 16) :
    struct_size T bridge_pack (ifbreq T) = 80 := by
  simp [struct_size, struct_end_from, members_align, ifbreq, bridge_pack, member_align, sizeof,
    alignof, align_up, h]

/-- C6: under the 4-byte packing and with `IFNAMSIZ` = 16, `struct ifbreq` is 80
bytes, with ifbr_ifsname at 0..15, ifbr_ifsflags 16, ifbr_stpflags 20,
ifbr_path_cost 24, ifbr_portno 28, ifbr_priority 29, ifbr_proto 30, ifbr_role
31, ifbr_state 32, padding in bytes 33..35, ifbr_addrcnt 36, ifbr_addrmax 40,
ifbr_addrexceeded 44 and pad in 48..79; the members are pairwise
non-overlapping and every 32-bit member starts at a multiple of 4. -/
theorem ifbreq_layout (T : Target) (h : T.IFNAMSIZ = 16) :
    struct_offsets T bridge_pack (ifbreq T) =
        [("ifbr_ifsname", 0), ("ifbr_ifsflags", 16), ("ifbr_stpflags", 20),
         ("ifbr_path_cost", 24), ("ifbr_portno", 28), ("ifbr_priority", 29),
         ("ifbr_proto", 30), ("ifbr_role", 31), ("ifbr_state", 32), ("ifbr_addrcnt", 36),
         ("ifbr_addrmax", 40), ("ifbr_addrexceeded", 44), ("pad", 48)] ∧
      member_ranges T bridge_pack 0 (ifbreq T) =
        [(0, 16), (16, 4), (20, 4), (24, 4), (28, 1), (29, 1), (30, 1), (31, 1), (32, 1),
         (36, 4), (40, 4), (44, 4), (48, 32)] ∧
      struct_size T bridge_pack (ifbreq T) = 80 ∧
      padding_bytes (struct_size T bridge_pack (ifbreq T))
        (member_ranges T bridge_pack 0 (ifbreq T)) = [33, 34, 35] ∧
      (member_ranges T bridge_pack 0 (ifbreq T)).Pairwise (fun a b => a.1 + a.2 ≤ b.1) ∧
      (∀ p ∈ List.zip (ifbreq T) (member_ranges T bridge_pack 0 (ifbreq T)),
        sizeof T p.1.type = 4 → p.2.1 % 4 = 0) := by
  have hr := ifbreq_ranges T h
  have hs := ifbreq_size T h
  refine ⟨?_, hr, hs, ?_, ?_, ?_⟩
  · simp [struct_offsets, struct_offsets_from, ifbreq, bridge_pack, member_align, sizeof,
      alignof, align_up, h]
  · rw [hr, hs]
    decide
  · rw [hr]
    decide
  · rw [hr]
    intro p hp
    simp only [ifbreq, List.zip_cons_cons, List.zip_nil_right, List.mem_cons,
      List.mem_singleton, List.not_mem_nil, or_false] at hp
    rcases hp with h | h | h | h | h | h | h | h | h | h | h | h | h <;> subst h <;>
      simp [sizeof]

theorem ifbreq_layout_witness :
    struct_size lp64 bridge_pack (ifbreq lp64) = 80 ∧
      offsetof (struct_offsets lp64 bridge_pack (ifbreq lp64)) "ifbr_addrcnt" = some 36 :=
  have h := ifbreq_layout lp64 rfl
  ⟨h.2.2.1, by rw [h.1]; decide⟩

/-- C10: the `#pragma pack(4)` of `if-bridge.h` is still in effect where
`struct ifbifconf` is declared (and after the header).  On LP64 (8-byte
pointers, naturally aligned 8) the pointer union of `ifbifconf` is then at
offset 4 and the struct is 12 bytes, where the naturally aligned layout has the
union at offset 8 and 16 bytes.  For `struct ifbreq` the packed layout is the
naturally aligned one (same offsets, same size, 80 bytes with `IFNAMSIZ` = 16):
no member of `ifbreq` has an alignment above 4. -/
theorem bridge_pack_governs_ifbifconf (T : Target) :
    pack_at Pack.natural if_bridge_h "ifbreq" = some bridge_pack ∧
      pack_at Pack.natural if_bridge_h "ifbifconf" = some bridge_pack ∧
      pack_after Pack.natural if_bridge_h = bridge_pack ∧
      struct_offsets lp64 bridge_pack (ifbifconf lp64 bridge_pack) =
        [("ifbic_len", 0), ("ifbic_ifbicu", 4)] ∧
      struct_size lp64 bridge_pack (ifbifconf lp64 bridge_pack) = 12 ∧
      struct_offsets lp64 Pack.natural (ifbifconf lp64 Pack.natural) =
        [("ifbic_len", 0), ("ifbic_ifbicu", 8)] ∧
      struct_size lp64 Pack.natural (ifbifconf lp64 Pack.natural) = 16 ∧
      struct_offsets T bridge_pack (ifbreq T) = struct_offsets T Pack.natural (ifbreq T) ∧
      member_ranges T bridge_pack 0 (ifbreq T) = member_ranges T Pack.natural 0 (ifbreq T) ∧
      struct_size T bridge_pack (ifbreq T) = struct_size T Pack.natural (ifbreq T) ∧
      struct_size lp64 bridge_pack (ifbreq lp64) = 80 ∧
      struct_size lp64 Pack.natural (ifbreq lp64) = 80 ∧
      (ifbreq T).all (fun m => decide (alignof T m.type ≤ 4)) = true := by
  have hal := ifbreq_alignof_le T
  refine ⟨by decide, by decide, by decide, by decide, by decide, by decide, by decide,
    struct_offsets_from_packed_eq T 4 _ hal 0, member_ranges_packed_eq T 4 _ hal 0, ?_,
    by decide, by decide, ?_⟩
  · simp only [struct_size, bridge_pack, struct_end_from_packed_eq T 4 _ hal 0,
      members_align_packed_eq T 4 _ hal]
  · simpa using hal

/-- C7: `struct ifbifconf` is the 32-bit length `ifbic_len` at offset 0 followed
by a union of two pointer arms, `ifbicu_buf` and `ifbicu_req`: the union starts
at or after byte 4, past the length, and lies inside the struct; both arms have
the offset of the union and the size of a pointer.  A pointer value stored
through either arm (`ifbic_buf`, `ifbic_req`) is the value read through the
other, the store leaves `ifbic_len` as it was, and a store to `ifbic_len`
leaves the pointer as it was.  Under the `#pragma pack(4)` of the header, on
LP64, the union is at offset 4. -/
theorem ifbifconf_pointer_arms (T : Target) (pk : Pack) (obj : List Nat) (p : Nat)
    (hpk : pk = Pack.natural ∨ pk = Pack.packed 4)
    (hobj : obj.length = struct_size T pk (ifbifconf T pk))
    (hp : p < 256 ^ T.ptr_size) :
    (ifbifconf T pk).map Member.name = ["ifbic_len", "ifbic_ifbicu"] ∧
      (ifbifconf T pk).head? = some ⟨"ifbic_len", .uint32_t⟩ ∧
      (struct_offsets T pk (ifbifconf T pk)).head? = some ("ifbic_len", 0) ∧
      sizeof T .uint32_t * 8 = 32 ∧
      ifbic_ifbicu = [⟨"ifbicu_buf", .pointer⟩, ⟨"ifbicu_req", .pointer⟩] ∧
      ifbic_offset T pk "ifbicu_buf" = ifbic_offset T pk "ifbicu_req" ∧
      member_size T ifbic_ifbicu "ifbicu_buf" = some T.ptr_size ∧
      member_size T ifbic_ifbicu "ifbicu_req" = some T.ptr_size ∧
      load_ifbic_req T pk (store_ifbic_buf T pk obj p) = p ∧
      load_ifbic_buf T pk (store_ifbic_req T pk obj p) = p ∧
      offsetof (struct_offsets T pk (ifbifconf T pk)) "ifbic_ifbicu" =
        some (ifbic_offset T pk "ifbicu_buf") ∧
      member_ranges T pk 0 (ifbifconf T pk) =
        [(0, 4), (ifbic_offset T pk "ifbicu_buf", union_size T pk ifbic_ifbicu)] ∧
      ifbic_len_offset T pk + sizeof T .uint32_t ≤ ifbic_offset T pk "ifbicu_buf" ∧
      ifbic_offset T pk "ifbicu_buf" + T.ptr_size ≤ struct_size T pk (ifbifconf T pk) ∧
      (store_ifbic_buf T pk obj p).length = obj.length ∧
      (store_ifbic_req T pk obj p).length = obj.length ∧
      load_ifbic_len T pk (store_ifbic_buf T pk obj p) = load_ifbic_len T pk obj ∧
      load_ifbic_len T pk (store_ifbic_req T pk obj p) = load_ifbic_len T pk obj ∧
      (∀ n, load_ifbic_buf T pk (store_ifbic_len T pk obj n) = load_ifbic_buf T pk obj ∧
        load_ifbic_req T pk (store_ifbic_len T pk obj n) = load_ifbic_req T pk obj ∧
        load_ifbic_len T pk (store_ifbic_len T pk obj n) = n % 4294967296) ∧
      ifbic_offset lp64 bridge_pack "ifbicu_buf" = 4 ∧
      ifbic_offset lp64 bridge_pack "ifbicu_req" = 4 := by
  have hoff := ifbic_offset_eq T pk
  have hend := ifbic_arm_end_le_size T pk
  have hpos := ifbic_union_align_pos T pk hpk
  have h4 := le_align_up 4 _ hpos
  have hlp := ifbic_len_place T pk
  have hb : member_size T ifbic_ifbicu "ifbicu_buf" = some T.ptr_size := by
    simp [member_size, ifbic_ifbicu, sizeof]
  have hr : member_size T ifbic_ifbicu "ifbicu_req" = some T.ptr_size := by
    simp [member_size, ifbic_ifbicu, sizeof]
  have hlen : (encode_le T.ptr_size p).length = T.ptr_size := length_encode_le _ _
  have hrw : read_bytes
      (write_bytes obj (align_up 4 (member_align T pk (union_type T pk ifbic_ifbicu)))
        (encode_le T.ptr_size p))
      (align_up 4 (member_align T pk (union_type T pk ifbic_ifbicu))) T.ptr_size =
      encode_le T.ptr_size p := by
    have := read_write_bytes obj (align_up 4 (member_align T pk (union_type T pk ifbic_ifbicu)))
      (encode_le T.ptr_size p) (by omega)
    rwa [hlen] at this
  have hkeep : read_bytes
      (write_bytes obj (align_up 4 (member_align T pk (union_type T pk ifbic_ifbicu)))
        (encode_le T.ptr_size p)) 0 4 = read_bytes obj 0 4 :=
    read_write_bytes_before obj _ _ 0 4 (by omega) (by omega)
  have hwl : (write_bytes obj (align_up 4 (member_align T pk (union_type T pk ifbic_ifbicu)))
      (encode_le T.ptr_size p)).length = obj.length :=
    length_write_bytes obj _ _ (by omega)
  refine ⟨rfl, rfl, ?_, rfl, rfl, ?_, hb, hr, ?_, ?_, ?_, ?_, ?_, ?_, ?_, ?_, ?_, ?_, ?_,
    by decide, by decide⟩
  · simp [struct_offsets, struct_offsets_from, ifbifconf, align_up_zero]
  · rw [hoff.1, hoff.2]
  · simp only [load_ifbic_req, store_ifbic_buf, hoff.1, hoff.2, hb, hr, Option.getD_some, hrw,
      decode_encode_le]
    exact Nat.mod_eq_of_lt hp
  · simp only [load_ifbic_buf, store_ifbic_req, hoff.1, hoff.2, hb, hr, Option.getD_some, hrw,
      decode_encode_le]
    exact Nat.mod_eq_of_lt hp
  · rw [hoff.1]
    exact ifbic_union_offset T pk
  · rw [hoff.1]
    exact ifbic_ranges T pk
  · rw [hoff.1, hlp.1]
    simpa [sizeof] using h4
  · rw [hoff.1]
    exact hend
  · simp only [store_ifbic_buf, hoff.1, hb, Option.getD_some]
    exact hwl
  · simp only [store_ifbic_req, hoff.2, hr, Option.getD_some]
    exact hwl
  · simp only [load_ifbic_len, store_ifbic_buf, hoff.1, hb, hlp.1, hlp.2, Option.getD_some,
      hkeep]
  · simp only [load_ifbic_len, store_ifbic_req, hoff.2, hr, hlp.1, hlp.2, Option.getD_some,
      hkeep]
  · intro n
    have hl4 : (encode_le 4 n).length = 4 := length_encode_le _ _
    have hafter : read_bytes (write_bytes obj 0 (encode_le 4 n))
        (align_up 4 (member_align T pk (union_type T pk ifbic_ifbicu))) T.ptr_size =
        read_bytes obj (align_up 4 (member_align T pk (union_type T pk ifbic_ifbicu)))
          T.ptr_size :=
      read_write_bytes_after obj 0 _ _ _ (by omega) (by omega)
    have hself : read_bytes (write_bytes obj 0 (encode_le 4 n)) 0 4 = encode_le 4 n := by
      have := read_write_bytes obj 0 (encode_le 4 n) (by omega)
      rwa [hl4] at this
    refine ⟨?_, ?_, ?_⟩
    · simp only [load_ifbic_buf, store_ifbic_len, hoff.1, hb, hlp.1, hlp.2, Option.getD_some,
        hafter]
    · simp only [load_ifbic_req, store_ifbic_len, hoff.2, hr, hlp.1, hlp.2, Option.getD_some,
        hafter]
    · simp only [load_ifbic_len, store_ifbic_len, hlp.1, hlp.2, Option.getD_some, hself,
        decode_encode_le]
      norm_num

theorem ifbifconf_pointer_arms_witness :
    ifbic_offset lp64 bridge_pack "ifbicu_buf" = ifbic_offset lp64 bridge_pack "ifbicu_req" ∧
      load_ifbic_req lp64 bridge_pack
        (store_ifbic_buf lp64 bridge_pack (List.replicate 12 0) 140732920758272) =
          140732920758272 ∧
      load_ifbic_buf lp64 bridge_pack
        (store_ifbic_req lp64 bridge_pack (List.replicate 12 0) 140732920758272) =
          140732920758272 ∧
      load_ifbic_len lp64 bridge_pack
        (store_ifbic_buf lp64 bridge_pack [80, 0, 0, 0, 0, 0, 0, 0, 0, 0, 0, 0]
          140732920758272) = 80 :=
  have h := ifbifconf_pointer_arms lp64 bridge_pack (List.replicate 12 0) 140732920758272
    (Or.inr rfl) (by decide) (by decide)
  have h2 := ifbifconf_pointer_arms lp64 bridge_pack [80, 0, 0, 0, 0, 0, 0, 0, 0, 0, 0, 0]
    140732920758272 (Or.inr rfl) (by decide) (by decide)
  ⟨h.2.2.2.2.2.1, h.2.2.2.2.2.2.2.2.1, h.2.2.2.2.2.2.2.2.2.1,
    h2.2.2.2.2.2.2.2.2.2.2.2.2.2.2.2.2.1.trans (by decide)⟩

/-- C8, as stated, fails: the accessors are unguarded. A request whose payload
was written through `iffr_media`, with current selection 0x306e65 and count 1,
read through `iffr_peer_name` gives the sixteen bytes 'e' 'n' '0' NUL, 1, 0,
...: the interface name "en0". -/
theorem media_read_as_peer_name :
    read_iffr_peer_name lp64 Pack.natural
        (write_iffr_media lp64 Pack.natural (List.replicate 160 0)
          { iffm_current := 0x306e65, iffm_count := 1, iffm_reserved := [0, 0, 0],
            iffm_list := [5] }) =
      [0x65, 0x6e, 0x30, 0, 1, 0, 0, 0, 0, 0, 0, 0, 0, 0, 0, 0] := by
  decide

/-- C8, amended: `struct if_fake_request` has no tag member and its accessors
are reads at offset 32 whatever was written. After a write of a media
descriptor through `iffr_media`, a read through `iffr_peer_name` gives the
first `IFNAMSIZ` bytes of the descriptor, a read through `iffr_dequeue_stall`
gives its current selection as an unsigned 32-bit value, and a read through
`iffr_media` gives the descriptor. -/
theorem iffr_u_raw_overlay (T : Target) (pk : Pack) (req : List Nat) (m : if_fake_media_val)
    (hT : T.IFNAMSIZ ≤ 128) (hpk : pk = Pack.natural ∨ pk = Pack.packed 4)
    (hreq : req.length = struct_size T pk (if_fake_request T pk)) :
    (if_fake_request T pk).map Member.name = ["iffr_reserved", "iffr_u"] ∧
      iffr_u_offset T pk "iffru_media" = 32 ∧
      iffr_u_offset T pk "iffru_peer_name" = 32 ∧
      iffr_u_offset T pk "iffru_dequeue_stall" = 32 ∧
      read_iffr_peer_name T pk (write_iffr_media T pk req m) =
        (encode_if_fake_media m).take T.IFNAMSIZ ∧
      read_iffr_dequeue_stall T pk (write_iffr_media T pk req m) =
        (m.iffm_current % 4294967296).toNat ∧
      read_iffr_media T pk (write_iffr_media T pk req m) = encode_if_fake_media m := by
  have hsz : req.length = 160 := by rw [hreq, if_fake_request_size T pk hT hpk]
  obtain ⟨-, hmo, hpo, hso⟩ := iffr_u_offsets T pk hpk
  have hlen := length_encode_if_fake_media m
  have hps : member_size T (iffr_u T pk) "iffru_peer_name" = some T.IFNAMSIZ := by
    simp [member_size, iffr_u, sizeof]
  have hss : member_size T (iffr_u T pk) "iffru_dequeue_stall" = some 4 := by
    simp [member_size, iffr_u, sizeof]
  have hms := iffru_media_size T pk hpk
  refine ⟨rfl, hmo, hpo, hso, ?_, ?_, ?_⟩
  · simp only [read_iffr_peer_name, write_iffr_media, hmo, hpo, hps, Option.getD_some]
    exact read_write_bytes_take req 32 _ _ (by omega) (by omega)
  · simp only [read_iffr_dequeue_stall, write_iffr_media, hmo, hso, hss, Option.getD_some]
    rw [read_write_bytes_take req 32 _ 4 (by omega) (by omega)]
    have h4 : (enc_i32 m.iffm_current).length = 4 := length_encode_le 4 _
    have ht : (encode_if_fake_media m).take 4 = enc_i32 m.iffm_current := by
      simp only [encode_if_fake_media, List.append_assoc]
      rw [List.take_append_of_le_length (by omega), ← h4, List.take_length]
    rw [ht]
    simp only [enc_i32, decode_encode_le]
    have hnn : (0 : Int) ≤ m.iffm_current % 4294967296 := Int.emod_nonneg _ (by decide)
    have hlt : m.iffm_current % 4294967296 < 4294967296 := Int.emod_lt_of_pos _ (by decide)
    apply Nat.mod_eq_of_lt
    have : ((m.iffm_current % 4294967296).toNat : Int) < 4294967296 := by
      rw [Int.toNat_of_nonneg hnn]; exact hlt
    norm_num
    omega
  · simp only [read_iffr_media, write_iffr_media, hmo, hms, Option.getD_some]
    have := read_write_bytes req 32 (encode_if_fake_media m) (by omega)
    rwa [hlen] at this

theorem iffr_u_raw_overlay_witness :
    read_iffr_peer_name lp64 Pack.natural
        (write_iffr_media lp64 Pack.natural (List.replicate 160 0)
          { iffm_current := -1, iffm_count := 2, iffm_reserved := [], iffm_list := [7, 9] }) =
      (encode_if_fake_media
        { iffm_current := -1, iffm_count := 2, iffm_reserved := [], iffm_list := [7, 9] }).take
          16 :=
  (iffr_u_raw_overlay lp64 Pack.natural (List.replicate 160 0)
    { iffm_current := -1, iffm_count := 2, iffm_reserved := [], iffm_list := [7, 9] }
    (by decide) (Or.inl rfl)
    (by simp [if_fake_request_size lp64 Pack.natural (by decide) (Or.inl rfl)])).2.2.2.2.1

/-- C9: a media list of 27 entries is accepted by `setMedia` and one of 28
entries fails with `TooManyMediaEntries`; a list is accepted if and only if its
length is at most IF_FAKE_MEDIA_LIST_MAX = 27, and the count of the descriptor
an accepted list gives is the length of the list, never above 27. -/
theorem setMedia_capacity (currentSelection : Int) (mediaList : List Int) :
    IF_FAKE_MEDIA_LIST_MAX = 27 ∧
      (mediaList.length = 27 → ∃ m, setMedia currentSelection mediaList = .ok m) ∧
      (mediaList.length = 28 →
        setMedia currentSelection mediaList = .error .TooManyMediaEntries) ∧
      ((∃ m, setMedia currentSelection mediaList = .ok m) ↔
        mediaList.length ≤ IF_FAKE_MEDIA_LIST_MAX) ∧
      (IF_FAKE_MEDIA_LIST_MAX < mediaList.length →
        setMedia currentSelection mediaList = .error .TooManyMediaEntries) ∧
      (∀ m, setMedia currentSelection mediaList = .ok m →
        m.iffm_count ≤ 27 ∧ m.iffm_count = mediaList.length ∧
          m.iffm_list.length = IF_FAKE_MEDIA_LIST_MAX ∧
          m.iffm_list.take m.iffm_count = mediaList ∧ m.iffm_current = currentSelection) := by
  refine ⟨rfl, ?_, ?_, ?_, ?_, ?_⟩
  · intro h
    simp [setMedia, IF_FAKE_MEDIA_LIST_MAX, h]
  · intro h
    simp [setMedia, IF_FAKE_MEDIA_LIST_MAX, h]
  · unfold setMedia
    split
    · simp; omega
    · simp; omega
  · intro h
    simp [setMedia, h]
  · intro m hm
    unfold setMedia at hm
    split at hm
    · cases hm
    · rename_i hle
      simp only [Except.ok.injEq] at hm
      subst hm
      simp only [IF_FAKE_MEDIA_LIST_MAX] at hle
      refine ⟨?_, ?_, ?_, ?_, ?_⟩
      · show mediaList.length ≤ 27
        omega
      · rfl
      · simp [IF_FAKE_MEDIA_LIST_MAX]
        omega
      · simp
      · rfl

theorem setMedia_capacity_witness :
    (∃ m, setMedia 0 (List.replicate 27 0) = .ok m) ∧
      setMedia 0 (List.replicate 28 0) = .error .TooManyMediaEntries :=
  ⟨(setMedia_capacity 0 (List.replicate 27 0)).2.1 (by decide),
   (setMedia_capacity 0 (List.replicate 28 0)).2.2.1 (by decide)⟩

end VirtIf
